import Mathlib

set_option linter.all false

/-!
Shallow embedding of `answer_sheet.py`, a pandas student-performance
data-cleaning script.  A data-frame cell is absent (NaN/pd.NA), a float
(modelled as a rational), or a Python string; a row carries the eight
columns of the dataset.  Each Task-4 cleaning statement of the script is
translated into an executable Lean function on tables, and the script's
name-resolution failure (it references `np` but its only import is
`import pandas as pd`) is modelled separately by `runScript`.
-/

/-- A cell of the data frame: absent (NaN / pd.NA), a numeric value
(pandas float, modelled as a rational), or a Python string. -/
inductive Cell
  | na : Cell
  | num : ℚ → Cell
  | str : String → Cell
deriving DecidableEq

/-- Is the cell a string?  (In pandas, a column holds string cells exactly
when its dtype is `object`.) -/
def Cell.isStr : Cell → Bool
  | .str _ => true
  | _ => false

/-- Is the cell absent? -/
def Cell.isNa : Cell → Bool
  | .na => true
  | _ => false

/-- The numeric content of a cell, when there is one. -/
def Cell.toNum : Cell → Option ℚ
  | .num q => some q
  | _ => none

/-- A row of `student_performance.csv`: the eight columns the script
works with. -/
structure Row where
  student_id : Cell
  age : Cell
  gender : Cell
  attendance : Cell
  assignment_score : Cell
  exam_score : Cell
  final_grade : Cell
  department : Cell
deriving DecidableEq

/-- The in-memory data frame: an ordered list of rows. -/
abbrev Table := List Row

/-- The Python exceptions the modelled pandas/numpy calls can raise. -/
inductive PyErr
  | nameError : String → PyErr
  | keyError : PyErr
  | typeError : PyErr
  | naComparisonError : PyErr
  | emptyDataError : PyErr
  | parserError : PyErr
deriving DecidableEq

instance {ε α : Type} [DecidableEq ε] [DecidableEq α] : DecidableEq (Except ε α) :=
  fun a b =>
    match a, b with
    | .ok x, .ok y =>
      if h : x = y then isTrue (by rw [h]) else isFalse (by simp [h])
    | .error x, .error y =>
      if h : x = y then isTrue (by rw [h]) else isFalse (by simp [h])
    | .ok _, .error _ => isFalse (fun h => Except.noConfusion h)
    | .error _, .ok _ => isFalse (fun h => Except.noConfusion h)

/-! ### Python string primitives used by the script -/

/-- Whitespace characters recognised by Python `str.strip` (the forms that
occur in this data set). -/
def isPySpace (c : Char) : Bool :=
  c == ' ' || c == '\t' || c == '\n' || c == '\r'

/-- Python `str.strip` on a character list. -/
def stripChars (cs : List Char) : List Char :=
  ((cs.dropWhile isPySpace).reverse.dropWhile isPySpace).reverse

/-- Python `str.strip`. -/
def stripStr (s : String) : String := String.mk (stripChars s.data)

/-- ASCII lower-casing of one character, as Python `str.lower` does on the
values of this data set. -/
def lowerChar (c : Char) : Char :=
  if 'A' ≤ c ∧ c ≤ 'Z' then Char.ofNat (c.toNat + 32) else c

/-- ASCII upper-casing of one character. -/
def upperChar (c : Char) : Char :=
  if 'a' ≤ c ∧ c ≤ 'z' then Char.ofNat (c.toNat - 32) else c

/-- Is the character an ASCII letter? -/
def isAlphaChar (c : Char) : Bool :=
  ('a' ≤ c ∧ c ≤ 'z') || ('A' ≤ c ∧ c ≤ 'Z')

/-- Python `str.lower`. -/
def lowerStr (s : String) : String := String.mk (s.data.map lowerChar)

/-- Python `str.title` on a character list: a letter that follows a
non-letter starts a word and is upper-cased, every other letter is
lower-cased.  The boolean argument records whether the previous character
was a letter. -/
def titleChars : Bool → List Char → List Char
  | _, [] => []
  | prev, c :: cs =>
    (if isAlphaChar c then (if prev then lowerChar c else upperChar c) else c)
      :: titleChars (isAlphaChar c) cs

/-- Python `str.title`. -/
def titleStr (s : String) : String := String.mk (titleChars false s.data)

/-- Lexicographic comparison of character lists by code point, the order
Python uses on strings (and hence the order `Series.mode` sorts by). -/
def charListLe : List Char → List Char → Bool
  | [], _ => true
  | _ :: _, [] => false
  | a :: as, b :: bs =>
    if a < b then true else if b < a then false else charListLe as bs

/-- Python string `<=`. -/
def strLeB (s t : String) : Bool := charListLe s.data t.data

/-! ### The numeric parser behind `pd.to_numeric(errors='coerce')` -/

/-- The natural number denoted by a digit list. -/
def natOfDigits (ds : List Char) : Nat :=
  ds.foldl (fun a c => a * 10 + (c.toNat - 48)) 0

/-- Parse an optional exponent suffix and apply it to the mantissa;
anything left over after the mantissa other than a well-formed exponent
makes the whole parse fail. -/
def parseExpPart (m : ℚ) : List Char → Option ℚ
  | [] => some m
  | 'e' :: r => parseExpTail m r
  | 'E' :: r => parseExpTail m r
  | _ => none
where
  parseExpTail (m : ℚ) (cs : List Char) : Option ℚ :=
    let (neg, cs2) :=
      match cs with
      | '-' :: r => (true, r)
      | '+' :: r => (false, r)
      | r => (false, r)
    let ds := cs2.takeWhile Char.isDigit
    let rest := cs2.dropWhile Char.isDigit
    if ds.isEmpty ∨ ¬rest.isEmpty then none
    else
      let e := natOfDigits ds
      some (if neg then m / 10 ^ e else m * 10 ^ e)

/-- Parse the part of a numeric literal after the optional sign: digits
with an optional fractional part, then an optional exponent. -/
def parseUnsigned (cs : List Char) : Option ℚ :=
  let ip := cs.takeWhile Char.isDigit
  let r1 := cs.dropWhile Char.isDigit
  match r1 with
  | '.' :: r2 =>
    let fp := r2.takeWhile Char.isDigit
    let r3 := r2.dropWhile Char.isDigit
    if ip.isEmpty ∧ fp.isEmpty then none
    else
      parseExpPart ((natOfDigits ip : ℚ) + (natOfDigits fp : ℚ) / 10 ^ fp.length) r3
  | r2 =>
    if ip.isEmpty then none else parseExpPart (natOfDigits ip : ℚ) r2

/-- The string-to-float parse performed by `pd.to_numeric`: surrounding
whitespace is ignored, then an optional sign and a decimal literal with
optional fraction and exponent.  (The special floats `inf`/`nan`, which ℚ
cannot carry, are outside this model; none of the verified properties
involve them.)  `none` is the parse failure that `errors='coerce'` turns
into NaN. -/
def parseFloatQ (s : String) : Option ℚ :=
  match stripChars s.data with
  | '-' :: r => (parseUnsigned r).map (fun q => -q)
  | '+' :: r => parseUnsigned r
  | r => parseUnsigned r

/-! ### Sorting, median, mode -/

/-- Insert into a ≤-sorted list of rationals. -/
def insertSortedQ (q : ℚ) : List ℚ → List ℚ
  | [] => [q]
  | x :: xs => if q ≤ x then q :: x :: xs else x :: insertSortedQ q xs

/-- Insertion sort of rationals, ascending. -/
def sortQ (l : List ℚ) : List ℚ := l.foldr insertSortedQ []

/-- `Series.median` over the present values of a column: the middle of the
sorted list, or the mean of the two middles for an even count; `none`
(pandas NaN) for an empty list. -/
def medianQ (l : List ℚ) : Option ℚ :=
  let s := sortQ l
  let n := s.length
  if n = 0 then none
  else if n % 2 = 1 then s[n / 2]?
  else do
    let a ← s[n / 2 - 1]?
    let b ← s[n / 2]?
    pure ((a + b) / 2)

/-- The order `Series.mode` sorts its result by: numbers by value, strings
by Python string order (mixed kinds never meet in this script's columns). -/
def cellLe : Cell → Cell → Bool
  | .na, _ => true
  | .num _, .na => false
  | .num p, .num q => decide (p ≤ q)
  | .num _, .str _ => true
  | .str _, .na => false
  | .str _, .num _ => false
  | .str a, .str b => strLeB a b

/-- Insert into a `cellLe`-sorted list of cells. -/
def insertSortedCell (c : Cell) : List Cell → List Cell
  | [] => [c]
  | x :: xs => if cellLe c x then c :: x :: xs else x :: insertSortedCell c xs

/-- Insertion sort of cells by `cellLe`, ascending. -/
def sortCells (l : List Cell) : List Cell := l.foldr insertSortedCell []

/-- Generic first-occurrence de-duplication: drop every element equal to an
earlier one.  The first argument accumulates the values already seen. -/
def dedupFirstAux {α : Type} [DecidableEq α] : List α → List α → List α
  | _, [] => []
  | seen, x :: xs =>
    if x ∈ seen then dedupFirstAux seen xs
    else x :: dedupFirstAux (x :: seen) xs

/-- Keep the first occurrence of each value, in order. -/
def dedupFirst {α : Type} [DecidableEq α] (l : List α) : List α :=
  dedupFirstAux [] l

/-- The present (non-absent) values of a column, in table order. -/
def presentCells (col : List Cell) : List Cell :=
  col.filter (fun c => !c.isNa)

/-- The present values of maximal frequency: the distinct present values
whose count equals the largest count. -/
def modeCands (col : List Cell) : List Cell :=
  (dedupFirst (presentCells col)).filter
    (fun v => (presentCells col).count v ==
      ((dedupFirst (presentCells col)).map
        (fun w => (presentCells col).count w)).foldr max 0)

/-- `Series.mode()[0]`: among the present values of maximal frequency,
the first of the ascending sort — i.e. the least such value; `none`
when there is no present value (then the subscript `[0]` raises
`KeyError`). -/
def modeValue (col : List Cell) : Option Cell :=
  (sortCells (modeCands col)).head?

/-- numpy/pandas `.round()`: round to the nearest integer, ties to even. -/
def roundHalfEven (q : ℚ) : ℤ :=
  if q - (⌊q⌋ : ℚ) < 1 / 2 then ⌊q⌋
  else if (1 : ℚ) / 2 < q - (⌊q⌋ : ℚ) then ⌊q⌋ + 1
  else if ⌊q⌋ % 2 = 0 then ⌊q⌋ else ⌊q⌋ + 1

/-! ### The Task-4 cleaning stages, one definition per script statement -/

/-- Script line 124, `df.drop_duplicates(keep='first').reset_index(drop=True)`:
drop every row that is a full-row duplicate of an earlier row. -/
def dropDuplicates (t : Table) : Table := dedupFirst t

/-- Script line 128, the list `missing_markers`. -/
def missing_markers : List String :=
  ["-", "N/A", "NA", "null", "missing", "None", ""]

/-- Script lines 129-130 applied to one cell: a string matching one of the
missing markers becomes NaN.  (The script loops over the `object`-dtype
columns; a non-object column holds no string cells, so applying the
replacement cell-wise is the same transformation.) -/
def replaceMarkers (c : Cell) : Cell :=
  match c with
  | .str s => if s ∈ missing_markers then .na else .str s
  | c => c

/-- Script lines 129-130 on the whole table. -/
def replaceMarkersStage (t : Table) : Table :=
  t.map fun r =>
    { student_id := replaceMarkers r.student_id
      age := replaceMarkers r.age
      gender := replaceMarkers r.gender
      attendance := replaceMarkers r.attendance
      assignment_score := replaceMarkers r.assignment_score
      exam_score := replaceMarkers r.exam_score
      final_grade := replaceMarkers r.final_grade
      department := replaceMarkers r.department }

/-- `pd.to_numeric(x, errors='coerce')` on one cell: numbers pass through,
absent stays absent, a string becomes its parsed value or NaN. -/
def toNumericCell (c : Cell) : Cell :=
  match c with
  | .na => .na
  | .num q => .num q
  | .str s =>
    match parseFloatQ s with
    | some q => .num q
    | none => .na

/-- Script lines 133-134: the coercion loop runs over `assignment_score`
and `exam_score` only. -/
def coerceScoresStage (t : Table) : Table :=
  let t1 := t.map fun r =>
    { r with assignment_score := toNumericCell r.assignment_score }
  t1.map fun r => { r with exam_score := toNumericCell r.exam_score }

/-- `col.fillna(col.median())` for a numeric column.  `Series.median` on a
column still holding strings raises (`TypeError`); on an all-absent column
it returns NaN, and `fillna(NaN)` leaves the column unchanged. -/
def imputeMedianCol (col : List Cell) : Except PyErr (List Cell) :=
  if col.any Cell.isStr then .error .typeError
  else
    match medianQ (col.filterMap Cell.toNum) with
    | none => .ok col
    | some m => .ok (col.map fun c => if c = .na then .num m else c)

/-- `col.fillna(col.mode()[0])` for a categorical column: `mode()` on a
column with no present value is empty and the `[0]` subscript raises
`KeyError`. -/
def imputeModeCol (col : List Cell) : Except PyErr (List Cell) :=
  match modeValue col with
  | none => .error .keyError
  | some v => .ok (col.map fun c => if c = .na then v else c)

/-- Write a freshly computed column back into the frame (`df[col] = ...`). -/
def setAgeCol (t : Table) (col : List Cell) : Table :=
  List.zipWith (fun r c => { r with age := c }) t col

/-- Write the attendance column back into the frame. -/
def setAttendanceCol (t : Table) (col : List Cell) : Table :=
  List.zipWith (fun r c => { r with attendance := c }) t col

/-- Write the assignment_score column back into the frame. -/
def setAssignmentCol (t : Table) (col : List Cell) : Table :=
  List.zipWith (fun r c => { r with assignment_score := c }) t col

/-- Write the exam_score column back into the frame. -/
def setExamCol (t : Table) (col : List Cell) : Table :=
  List.zipWith (fun r c => { r with exam_score := c }) t col

/-- Write the gender column back into the frame. -/
def setGenderCol (t : Table) (col : List Cell) : Table :=
  List.zipWith (fun r c => { r with gender := c }) t col

/-- Write the department column back into the frame. -/
def setDepartmentCol (t : Table) (col : List Cell) : Table :=
  List.zipWith (fun r c => { r with department := c }) t col

/-- Script lines 140-146, in source order: median imputation for `age`,
`attendance`, `assignment_score`, `exam_score`, then mode imputation for
`gender` and `department`. -/
def imputeStage (t : Table) : Except PyErr Table := do
  let c1 ← imputeMedianCol (t.map (fun r => r.age))
  let t1 := setAgeCol t c1
  let c2 ← imputeMedianCol (t1.map (fun r => r.attendance))
  let t2 := setAttendanceCol t1 c2
  let c3 ← imputeMedianCol (t2.map (fun r => r.assignment_score))
  let t3 := setAssignmentCol t2 c3
  let c4 ← imputeMedianCol (t3.map (fun r => r.exam_score))
  let t4 := setExamCol t3 c4
  let c5 ← imputeModeCol (t4.map (fun r => r.gender))
  let t5 := setGenderCol t4 c5
  let c6 ← imputeModeCol (t5.map (fun r => r.department))
  pure (setDepartmentCol t5 c6)

/-- Python `str()` of a cell as `astype(str)` produces it: NaN prints
`"nan"`, an integral float prints with a trailing `.0`, strings pass
through.  (Non-integral floats are rendered `num/den`; the script only
feeds categorical columns — strings after the earlier stages — through
`astype(str)`, so that case carries no verified property.) -/
def cellToString : Cell → String
  | .na => "nan"
  | .num q =>
    if q.den = 1 then (toString q.num) ++ ".0"
    else (toString q.num) ++ "/" ++ (toString q.den)
  | .str s => s

/-- Script line 152 on one cell:
`astype(str).str.strip().str.lower().str.title()`. -/
def stdCatCell (c : Cell) : Cell :=
  .str (titleStr (lowerStr (stripStr (cellToString c))))

/-- Script lines 151-152: the standardization loop over `gender`,
`department`, `final_grade`. -/
def standardizeCatsStage (t : Table) : Table :=
  t.map fun r =>
    { r with gender := stdCatCell r.gender
             department := stdCatCell r.department
             final_grade := stdCatCell r.final_grade }

/-- Script line 155, the dictionary `gender_mapping`. -/
def gender_mapping : List (String × String) :=
  [("M", "Male"), ("F", "Female"), ("Male", "Male"), ("Female", "Female")]

/-- `Series.replace(gender_mapping)` on one string: a key is replaced by
its image, any other value passes through unchanged. -/
def genderReplace (s : String) : String :=
  match gender_mapping.lookup s with
  | some v => v
  | none => s

/-- Script line 156 on one cell. -/
def applyGenderMapCell (c : Cell) : Cell :=
  match c with
  | .str s => .str (genderReplace s)
  | c => c

/-- Script line 156: the gender alias map over the table. -/
def applyGenderMapStage (t : Table) : Table :=
  t.map fun r => { r with gender := applyGenderMapCell r.gender }

/-- Script lines 159-161 on the age column: `.round().astype('Int64')`,
then `np.where((age < 16) | (age > 40), median_age, age)` with
`median_age` the median of the integerized column at that moment.
`round()` on a column still holding strings raises; the comparison mask
of a column holding `pd.NA` cannot be converted by `np.where`
(the truth value of NA is ambiguous) and raises as well. -/
def ageCorrectCol (col : List Cell) : Except PyErr (List Cell) :=
  if col.any Cell.isStr then .error .typeError
  else if col.any Cell.isNa then .error .naComparisonError
  else
    let ints : List ℤ := col.filterMap (fun c => (Cell.toNum c).map roundHalfEven)
    match medianQ (ints.map fun (i : ℤ) => (i : ℚ)) with
    | none => .ok []
    | some m =>
      .ok (ints.map fun (a : ℤ) =>
        if a < 16 ∨ 40 < a then Cell.num m else Cell.num (a : ℚ))

/-- Script lines 159-161 on the whole table. -/
def ageCorrectStage (t : Table) : Except PyErr Table := do
  let col ← ageCorrectCol (t.map (fun r => r.age))
  pure (setAgeCol t col)

/-- `np.clip(q, 0, 100)` on a number. -/
def clipQ (q : ℚ) : ℚ := min (max q 0) 100

/-- `np.clip(c, 0, 100)` on one cell: NaN stays NaN; a string column would
make the comparison raise `TypeError`. -/
def clipCell (c : Cell) : Except PyErr Cell :=
  match c with
  | .na => .ok .na
  | .num q => .ok (.num (clipQ q))
  | .str _ => .error .typeError

/-- Script lines 164-166 on one row: clip `attendance`,
`assignment_score`, `exam_score` into [0, 100]. -/
def clampRow (r : Row) : Except PyErr Row := do
  let a ← clipCell r.attendance
  let b ← clipCell r.assignment_score
  let c ← clipCell r.exam_score
  pure { r with attendance := a, assignment_score := b, exam_score := c }

/-- Script lines 164-166 on the whole table. -/
def clampStage (t : Table) : Except PyErr Table := t.mapM clampRow

/-- The Task-4 cleaning pipeline, stages in script order, with each
numpy-dependent statement given the semantics numpy would provide (the
script's failure to import numpy is modelled separately in `runScript`). -/
def pipeline (t : Table) : Except PyErr Table := do
  let t1 := dropDuplicates t
  let t2 := replaceMarkersStage t1
  let t3 := coerceScoresStage t2
  let t4 ← imputeStage t3
  let t5 := applyGenderMapStage (standardizeCatsStage t4)
  let t6 ← ageCorrectStage t5
  clampStage t6

/-! ### The script as written: name resolution against its imports -/

/-- The names bound by the script's import statements — line 1,
`import pandas as pd`, is the only import in the file. -/
def importedNames : List String := ["pd"]

/-- Does some cell of the table hold a string?  In pandas this is exactly
when some column has dtype `object`, i.e. when
`df.select_dtypes('object').columns` is non-empty. -/
def rowHasStr (r : Row) : Bool :=
  r.student_id.isStr || r.age.isStr || r.gender.isStr || r.attendance.isStr ||
  r.assignment_score.isStr || r.exam_score.isStr || r.final_grade.isStr ||
  r.department.isStr

/-- Does the table contain at least one text-typed (object) column? -/
def hasObjectColumn (t : Table) : Bool := t.any rowHasStr

/-- The Task-4 portion of the script as actually written: before a
statement that mentions `np` can run, the name must resolve against
`importedNames`, otherwise a `NameError` propagates.  The missing-marker
loop (stage 2) evaluates `np.nan` once per object-dtype column, so it
raises exactly when the table has a text-typed column; the age correction
(stage 6) and the clipping (stage 7) mention `np` unconditionally.
Errors are tagged with the number of the cleaning step they arise in. -/
def runScript (t : Table) : Except (Nat × PyErr) Table :=
  let t1 := dropDuplicates t
  if hasObjectColumn t1 && !(importedNames.contains "np") then
    .error (2, .nameError "np")
  else
    let t2 := replaceMarkersStage t1
    let t3 := coerceScoresStage t2
    match imputeStage t3 with
    | .error e => .error (4, e)
    | .ok t4 =>
      let t5 := applyGenderMapStage (standardizeCatsStage t4)
      if !(importedNames.contains "np") then .error (6, .nameError "np")
      else
        match ageCorrectStage t5 with
        | .error e => .error (6, e)
        | .ok t6 =>
          match clampStage t6 with
          | .error e => .error (7, e)
          | .ok t7 => .ok t7

/-- Is a cleaned output file written?  `df.to_csv` on line 186 runs only
if every cleaning statement before it completed. -/
def outputSaved (t : Table) : Bool := (runScript t).toOption.isSome

/-! ### Loading (`pd.read_csv` with default arguments) -/

/-- The eight columns §3 of the design expects. -/
def expected_columns : List String :=
  ["student_id", "age", "gender", "attendance", "assignment_score",
   "exam_score", "final_grade", "department"]

/-- A parsed CSV file: the header line and the data rows. -/
structure RawFrame where
  header : List String
  rows : List (List String)
deriving DecidableEq

/-- `pd.read_csv` with default arguments, as on script line 61: the first
line — whatever it contains — becomes the header (`header=0`); no
validation of the header names is performed; an empty file raises
`EmptyDataError` and a data row with more fields than the header raises a
tokenizer `ParserError`. -/
def readCsv (file : List (List String)) : Except PyErr RawFrame :=
  match file with
  | [] => .error .emptyDataError
  | hdr :: rest =>
    if rest.all (fun row => row.length ≤ hdr.length) then .ok ⟨hdr, rest⟩
    else .error .parserError

/-- `df[name]` column access: a name not among the frame's columns raises
`KeyError` — the earliest point where a missing expected column can be
noticed. -/
def columnIndex (f : RawFrame) (name : String) : Except PyErr Nat :=
  match f.header.findIdx? (fun h => h == name) with
  | some i => .ok i
  | none => .error .keyError

/-! ### Concrete tables used by the verified test cases -/

/-- A row with every column filled in; the identifier, age, gender and
attendance cells vary per test, the remaining columns hold fixed valid
values. -/
def mkRowG (sid : String) (ag gen att : Cell) : Row :=
  { student_id := Cell.str sid, age := ag, gender := gen, attendance := att,
    assignment_score := Cell.num 60, exam_score := Cell.num 70,
    final_grade := Cell.str "A", department := Cell.str "Cs" }

/-- A fully valid row whose age is the only varying numeric value. -/
def mkRow9 (sid : String) (a : ℚ) : Row :=
  mkRowG sid (Cell.num a) (Cell.str "Male") (Cell.num 50)

/-- Ages 10, 45, 20, 23: the two out-of-range ages are replaced by the
median 21.5 of the integerized column. -/
def t9 : Table := [mkRow9 "S1" 10, mkRow9 "S2" 45, mkRow9 "S3" 20, mkRow9 "S4" 23]

/-- The cleaned output of `t9`: ages 21.5, 21.5, 20, 23. -/
def u9 : Table :=
  [mkRow9 "S1" (43 / 2), mkRow9 "S2" (43 / 2), mkRow9 "S3" 20, mkRow9 "S4" 23]

/-- The output of cleaning `u9` again: the fractional ages are re-rounded
to 22 and kept (now in range). -/
def v9 : Table := [mkRow9 "S1" 22, mkRow9 "S2" 22, mkRow9 "S3" 20, mkRow9 "S4" 23]

/-- Blank out the age column (used to compare two tables up to age). -/
def eraseAge (r : Row) : Row := { r with age := Cell.na }

/-- Attendance values 105, -5, 50 with all other columns valid. -/
def t6clamp : Table :=
  [mkRowG "S1" (Cell.num 20) (Cell.str "Male") (Cell.num 105),
   mkRowG "S2" (Cell.num 21) (Cell.str "Male") (Cell.num (-5)),
   mkRowG "S3" (Cell.num 22) (Cell.str "Male") (Cell.num 50)]

/-- The cleaned output of `t6clamp`: attendance clamped to 100, 0, 50. -/
def u6clamp : Table :=
  [mkRowG "S1" (Cell.num 20) (Cell.str "Male") (Cell.num 100),
   mkRowG "S2" (Cell.num 21) (Cell.str "Male") (Cell.num 0),
   mkRowG "S3" (Cell.num 22) (Cell.str "Male") (Cell.num 50)]

/-- A table whose attendance column is entirely absent. -/
def tAttAbsent : Table :=
  [mkRowG "S1" (Cell.num 20) (Cell.str "Male") Cell.na,
   mkRowG "S2" (Cell.num 22) (Cell.str "Male") Cell.na]

/-- A table whose age column is entirely absent. -/
def tAgeAbsent : Table :=
  [mkRowG "S1" Cell.na (Cell.str "Male") (Cell.num 50),
   mkRowG "S2" Cell.na (Cell.str "Male") (Cell.num 50)]

/-- Gender column "b", "a", absent: the two present values are tied with
one occurrence each, and "b" is encountered first. -/
def tTie : Table :=
  [mkRowG "S1" (Cell.num 20) (Cell.str "b") (Cell.num 50),
   mkRowG "S2" (Cell.num 21) (Cell.str "a") (Cell.num 50),
   mkRowG "S3" (Cell.num 22) Cell.na (Cell.num 50)]

/-- `tTie` after imputation: the absent gender is filled with "a". -/
def uTie : Table :=
  [mkRowG "S1" (Cell.num 20) (Cell.str "b") (Cell.num 50),
   mkRowG "S2" (Cell.num 21) (Cell.str "a") (Cell.num 50),
   mkRowG "S3" (Cell.num 22) (Cell.str "a") (Cell.num 50)]

/-- A row whose attendance cell is the non-numeric string "abc". -/
def rowC2 : Row := mkRowG "S1" (Cell.num 20) (Cell.str "Male") (Cell.str "abc")

/-- Two distinct rows for the duplicate-removal test. -/
def rowD1 : Row := mkRowG "D1" (Cell.num 20) (Cell.str "Male") (Cell.num 50)

/-- Second distinct row for the duplicate-removal test. -/
def rowD2 : Row := mkRowG "D2" (Cell.num 21) (Cell.str "Male") (Cell.num 50)

/-- A row whose gender cell is absent (with everything else valid). -/
def rowNoGender : Row := mkRowG "S1" (Cell.num 20) Cell.na (Cell.num 50)

/-! ### Basic lemmas about cells -/

@[simp] lemma Cell.isStr_na : Cell.na.isStr = false := rfl

@[simp] lemma Cell.isStr_num (q : ℚ) : (Cell.num q).isStr = false := rfl

@[simp] lemma Cell.isStr_str (s : String) : (Cell.str s).isStr = true := rfl

@[simp] lemma Cell.isNa_na : Cell.na.isNa = true := rfl

@[simp] lemma Cell.isNa_num (q : ℚ) : (Cell.num q).isNa = false := rfl

@[simp] lemma Cell.isNa_str (s : String) : (Cell.str s).isNa = false := rfl

@[simp] lemma Cell.toNum_na : Cell.na.toNum = none := rfl

@[simp] lemma Cell.toNum_num (q : ℚ) : (Cell.num q).toNum = some q := rfl

@[simp] lemma Cell.toNum_str (s : String) : (Cell.str s).toNum = none := rfl

/-! ### First-occurrence de-duplication -/

lemma mem_dedupFirstAux {α : Type} [DecidableEq α] :
    ∀ (l seen : List α) (x : α),
      x ∈ dedupFirstAux seen l ↔ x ∈ l ∧ x ∉ seen := by
  intro l
  induction l with
  | nil => intro seen x; simp [dedupFirstAux]
  | cons a as ih =>
    intro seen x
    by_cases ha : a ∈ seen
    · rw [dedupFirstAux, if_pos ha, ih]
      constructor
      · rintro ⟨hx, hns⟩; exact ⟨List.mem_cons_of_mem _ hx, hns⟩
      · rintro ⟨hx, hns⟩
        rcases List.mem_cons.1 hx with rfl | hx
        · exact absurd ha hns
        · exact ⟨hx, hns⟩
    · rw [dedupFirstAux, if_neg ha]
      rw [List.mem_cons, ih]
      constructor
      · rintro (rfl | ⟨hx, hns⟩)
        · exact ⟨List.mem_cons_self _ _, ha⟩
        · exact ⟨List.mem_cons_of_mem _ hx,
            fun h => hns (List.mem_cons_of_mem _ h)⟩
      · rintro ⟨hx, hns⟩
        rcases List.mem_cons.1 hx with rfl | hx
        · exact Or.inl rfl
        · by_cases hxa : x = a
          · exact Or.inl hxa
          · exact Or.inr ⟨hx, fun h => by
              rcases List.mem_cons.1 h with h | h
              · exact hxa h
              · exact hns h⟩

lemma mem_dedupFirst {α : Type} [DecidableEq α] (l : List α) (x : α) :
    x ∈ dedupFirst l ↔ x ∈ l := by
  rw [dedupFirst, mem_dedupFirstAux]; simp

lemma nodup_dedupFirstAux {α : Type} [DecidableEq α] :
    ∀ (l seen : List α), (dedupFirstAux seen l).Nodup := by
  intro l
  induction l with
  | nil => intro seen; simp [dedupFirstAux]
  | cons a as ih =>
    intro seen
    by_cases ha : a ∈ seen
    · rw [dedupFirstAux, if_pos ha]; exact ih seen
    · rw [dedupFirstAux, if_neg ha]
      refine List.nodup_cons.2 ⟨fun h => ?_, ih (a :: seen)⟩
      exact ((mem_dedupFirstAux as (a :: seen) a).1 h).2 (List.mem_cons_self _ _)

lemma sublist_dedupFirstAux {α : Type} [DecidableEq α] :
    ∀ (l seen : List α), List.Sublist (dedupFirstAux seen l) l := by
  intro l
  induction l with
  | nil => intro seen; simp [dedupFirstAux]
  | cons a as ih =>
    intro seen
    by_cases ha : a ∈ seen
    · rw [dedupFirstAux, if_pos ha]; exact (ih seen).cons a
    · rw [dedupFirstAux, if_neg ha]; exact (ih (a :: seen)).cons₂ a

lemma enumFrom_succ_eq {α : Type} :
    ∀ (xs : List α) (n : Nat),
      xs.enumFrom (n + 1) = (xs.enumFrom n).map (fun p => (p.1 + 1, p.2)) := by
  intro xs
  induction xs with
  | nil => intro n; rfl
  | cons a as ih =>
    intro n
    rw [List.enumFrom_cons, List.enumFrom_cons, List.map_cons, ih (n + 1)]

lemma dedupFirstAux_eq_filterEnum {α : Type} [DecidableEq α] :
    ∀ (l seen : List α),
      dedupFirstAux seen l =
        ((l.enum.filter fun p => decide (p.2 ∉ seen ∧ p.2 ∉ l.take p.1)).map
          Prod.snd) := by
  intro l
  induction l with
  | nil => intro seen; rfl
  | cons a as ih =>
    intro seen
    have henum : (a :: as).enum = (0, a) :: (as.enum.map fun p => (p.1 + 1, p.2)) := by
      show List.enumFrom 0 (a :: as) = _
      rw [List.enumFrom_cons, enumFrom_succ_eq]
      rfl
    have hcmm : ∀ (pred : Nat × α → Bool),
        ((as.enum.map fun p => (p.1 + 1, p.2)).filter pred).map Prod.snd =
          ((as.enum.filter fun p => pred (p.1 + 1, p.2)).map Prod.snd) := by
      intro pred
      rw [List.filter_map, List.map_map]
      rfl
    by_cases ha : a ∈ seen
    · rw [dedupFirstAux, if_pos ha, henum]
      rw [List.filter_cons]
      have h0 : (decide (a ∉ seen ∧ a ∉ (a :: as).take 0)) = false := by
        simp [ha]
      rw [h0]
      simp only [Bool.false_eq_true, if_false]
      rw [hcmm, ih seen]
      congr 1
      apply List.filter_congr
      intro p hp
      obtain ⟨i, v⟩ := p
      rw [decide_eq_decide]
      dsimp only
      rw [List.take_succ_cons, List.mem_cons]
      constructor
      · rintro ⟨h1, h2⟩
        refine ⟨h1, fun hmem => ?_⟩
        rcases hmem with rfl | hmem
        · exact h1 ha
        · exact h2 hmem
      · rintro ⟨h1, h2⟩
        exact ⟨h1, fun hmem => h2 (Or.inr hmem)⟩
    · rw [dedupFirstAux, if_neg ha, henum]
      rw [List.filter_cons]
      have h0 : (decide (a ∉ seen ∧ a ∉ (a :: as).take 0)) = true := by
        simp [ha]
      rw [h0]
      simp only [if_true]
      rw [List.map_cons, hcmm, ih (a :: seen)]
      congr 2
      apply List.filter_congr
      intro p hp
      obtain ⟨i, v⟩ := p
      rw [decide_eq_decide]
      dsimp only
      rw [List.take_succ_cons, List.mem_cons, List.mem_cons]
      constructor
      · rintro ⟨h1, h2⟩
        refine ⟨fun hmem => h1 (Or.inr hmem), fun hmem => ?_⟩
        rcases hmem with rfl | hmem
        · exact h1 (Or.inl rfl)
        · exact h2 hmem
      · rintro ⟨h1, h2⟩
        refine ⟨fun hmem => ?_, fun hmem => h2 (Or.inr hmem)⟩
        rcases hmem with rfl | hmem
        · exact h2 (Or.inl rfl)
        · exact h1 hmem

lemma dedupFirst_eq_filterEnum {α : Type} [DecidableEq α] (l : List α) :
    dedupFirst l =
      ((l.enum.filter fun p => decide (p.2 ∉ l.take p.1)).map Prod.snd) := by
  rw [dedupFirst, dedupFirstAux_eq_filterEnum]
  congr 1
  apply List.filter_congr
  intro p hp
  rw [decide_eq_decide]
  simp

/-! ### Lemmas about the mode's ordering -/

lemma charListLe_refl : ∀ (cs : List Char), charListLe cs cs = true := by
  intro cs
  induction cs with
  | nil => rfl
  | cons a as ih =>
    rw [charListLe, if_neg (lt_irrefl a), if_neg (lt_irrefl a)]
    exact ih

lemma charListLe_total :
    ∀ (cs ds : List Char), charListLe cs ds = true ∨ charListLe ds cs = true := by
  intro cs
  induction cs with
  | nil => intro ds; exact Or.inl rfl
  | cons a as ih =>
    intro ds
    cases ds with
    | nil => exact Or.inr rfl
    | cons b bs =>
      by_cases hab : a < b
      · left; rw [charListLe, if_pos hab]
      · by_cases hba : b < a
        · right; rw [charListLe, if_pos hba]
        · rcases ih bs with h | h
          · left; rw [charListLe, if_neg hab, if_neg hba]; exact h
          · right; rw [charListLe, if_neg hba, if_neg hab]; exact h

lemma cellLe_refl : ∀ (c : Cell), cellLe c c = true := by
  intro c
  cases c with
  | na => rfl
  | num q => simp [cellLe]
  | str s => exact charListLe_refl s.data

lemma cellLe_total : ∀ (a b : Cell), cellLe a b = true ∨ cellLe b a = true := by
  intro a b
  cases a with
  | na => exact Or.inl rfl
  | num p =>
    cases b with
    | na => exact Or.inr rfl
    | num q =>
      rcases le_total p q with h | h
      · left; simpa [cellLe] using h
      · right; simpa [cellLe] using h
    | str s => exact Or.inl rfl
  | str s =>
    cases b with
    | na => exact Or.inr rfl
    | num q => exact Or.inr rfl
    | str t => exact charListLe_total s.data t.data

lemma mem_insertSortedCell (c x : Cell) :
    ∀ (l : List Cell), x ∈ insertSortedCell c l ↔ x = c ∨ x ∈ l := by
  intro l
  induction l with
  | nil => simp [insertSortedCell]
  | cons a as ih =>
    rw [insertSortedCell]
    by_cases h : cellLe c a = true
    · rw [if_pos h]
      simp only [List.mem_cons]
    · rw [if_neg h]
      rw [List.mem_cons, ih, List.mem_cons]
      tauto

lemma mem_sortCells (x : Cell) :
    ∀ (l : List Cell), x ∈ sortCells l ↔ x ∈ l := by
  intro l
  induction l with
  | nil => simp [sortCells]
  | cons a as ih =>
    show x ∈ insertSortedCell a (sortCells as) ↔ _
    rw [mem_insertSortedCell, ih, List.mem_cons]

lemma charListLe_cons_iff (a b : Char) (as bs : List Char) :
    charListLe (a :: as) (b :: bs) = true ↔
      a < b ∨ (a = b ∧ charListLe as bs = true) := by
  rw [charListLe]
  by_cases hab : a < b
  · simp [hab]
  · by_cases hba : b < a
    · have : ¬a = b := fun h => absurd (h ▸ hba) (lt_irrefl a)
      simp [hab, hba, this]
    · have heq : a = b := le_antisymm (not_lt.1 hba) (not_lt.1 hab)
      simp [hab, hba, heq]

lemma charListLe_trans :
    ∀ (cs ds es : List Char), charListLe cs ds = true →
      charListLe ds es = true → charListLe cs es = true := by
  intro cs
  induction cs with
  | nil => intro ds es h1 h2; rfl
  | cons a as ih =>
    intro ds es h1 h2
    cases ds with
    | nil => exact absurd h1 (by simp [charListLe])
    | cons b bs =>
      cases es with
      | nil => exact absurd h2 (by simp [charListLe])
      | cons c cs2 =>
        rw [charListLe_cons_iff] at h1 h2 ⊢
        rcases h1 with h1 | ⟨rfl, h1⟩
        · rcases h2 with h2 | ⟨rfl, h2⟩
          · exact Or.inl (lt_trans h1 h2)
          · exact Or.inl h1
        · rcases h2 with h2 | ⟨rfl, h2⟩
          · exact Or.inl h2
          · exact Or.inr ⟨rfl, ih bs cs2 h1 h2⟩

lemma cellLe_trans :
    ∀ (a b c : Cell), cellLe a b = true → cellLe b c = true →
      cellLe a c = true := by
  intro a b c h1 h2
  cases a with
  | na => rfl
  | num p =>
    cases b with
    | na => exact absurd h1 (by simp [cellLe])
    | num q =>
      cases c with
      | na => exact absurd h2 (by simp [cellLe])
      | num r =>
        rw [cellLe, decide_eq_true_eq] at h1 h2 ⊢
        exact le_trans h1 h2
      | str t => rfl
    | str s =>
      cases c with
      | na => exact absurd h2 (by simp [cellLe])
      | num r => exact absurd h2 (by simp [cellLe])
      | str t => rfl
  | str s =>
    cases b with
    | na => exact absurd h1 (by simp [cellLe])
    | num q => exact absurd h1 (by simp [cellLe])
    | str t =>
      cases c with
      | na => exact absurd h2 (by simp [cellLe])
      | num r => exact absurd h2 (by simp [cellLe])
      | str u => exact charListLe_trans s.data t.data u.data h1 h2

lemma pairwise_insertSortedCell (c : Cell) :
    ∀ (l : List Cell), l.Pairwise (fun a b => cellLe a b = true) →
      (insertSortedCell c l).Pairwise (fun a b => cellLe a b = true) := by
  intro l
  induction l with
  | nil => intro _; simp [insertSortedCell, cellLe_refl]
  | cons a as ih =>
    intro hp
    rw [insertSortedCell]
    rcases List.pairwise_cons.1 hp with ⟨ha, has⟩
    by_cases h : cellLe c a = true
    · rw [if_pos h]
      refine List.pairwise_cons.2 ⟨?_, hp⟩
      intro b hb
      rcases List.mem_cons.1 hb with rfl | hb
      · exact h
      · exact cellLe_trans c a b h (ha b hb)
    · rw [if_neg h]
      refine List.pairwise_cons.2 ⟨?_, ih has⟩
      intro b hb
      rcases (mem_insertSortedCell c b as).1 hb with rfl | hb
      · rcases cellLe_total a b with hab | hba
        · exact hab
        · exact absurd hba h
      · exact ha b hb

lemma pairwise_sortCells :
    ∀ (l : List Cell), (sortCells l).Pairwise (fun a b => cellLe a b = true) := by
  intro l
  induction l with
  | nil => simp [sortCells]
  | cons a as ih => exact pairwise_insertSortedCell a (sortCells as) ih

lemma head_sortCells_min (l : List Cell) (v : Cell) (h : (sortCells l).head? = some v) :
    ∀ x ∈ sortCells l, cellLe v x = true := by
  intro x hx
  cases hs : sortCells l with
  | nil => rw [hs] at hx; exact absurd hx (List.not_mem_nil x)
  | cons w ws =>
    rw [hs] at h hx
    have hw : w = v := by
      have := h
      simp [List.head?] at this
      exact this
    subst hw
    have hp := pairwise_sortCells l
    rw [hs] at hp
    rcases List.mem_cons.1 hx with rfl | hx
    · exact cellLe_refl x
    · exact (List.pairwise_cons.1 hp).1 x hx

lemma le_foldr_maxNat : ∀ (l : List Nat) (x : Nat), x ∈ l → x ≤ l.foldr max 0 := by
  intro l
  induction l with
  | nil => intro x hx; exact absurd hx (List.not_mem_nil x)
  | cons a as ih =>
    intro x hx
    rcases List.mem_cons.1 hx with rfl | hx
    · exact le_max_left _ _
    · exact le_trans (ih x hx) (le_max_right _ _)

lemma foldr_maxNat_mem : ∀ (l : List Nat), l ≠ [] → l.foldr max 0 ∈ l := by
  intro l
  induction l with
  | nil => intro h; exact absurd rfl h
  | cons a as ih =>
    intro _
    by_cases has : as = []
    · subst has; simp
    · rw [List.foldr_cons]
      rcases max_choice a (as.foldr max 0) with h | h
      · rw [h]; exact List.mem_cons_self _ _
      · rw [h]; exact List.mem_cons_of_mem _ (ih has)

/-! ### Facts about `modeValue` and the imputation helpers -/

lemma modeValue_of_no_present (col : List Cell) (h : presentCells col = []) :
    modeValue col = none := by
  rw [modeValue, modeCands, h]
  rfl

lemma mem_of_modeValue (col : List Cell) (v : Cell) (h : modeValue col = some v) :
    v ∈ sortCells (modeCands col) := by
  rw [modeValue] at h
  cases hs : sortCells (modeCands col) with
  | nil => rw [hs] at h; exact absurd h (by simp)
  | cons w ws =>
    rw [hs] at h
    have hw : w = v := by simpa [List.head?] using h
    rw [← hw]
    exact List.mem_cons_self _ _

lemma modeValue_mem (col : List Cell) (v : Cell) (h : modeValue col = some v) :
    v ∈ presentCells col ∧ v ∈ modeCands col := by
  have hcand := (mem_sortCells v _).1 (mem_of_modeValue col v h)
  refine ⟨?_, hcand⟩
  rw [modeCands] at hcand
  exact (mem_dedupFirst _ v).1 (List.mem_filter.1 hcand).1

lemma modeValue_maximal (col : List Cell) (v : Cell) (h : modeValue col = some v) :
    ∀ w ∈ presentCells col,
      (presentCells col).count w ≤ (presentCells col).count v := by
  intro w hw
  have hm := modeValue_mem col v h
  have hvc := (List.mem_filter.1 (by rw [modeCands] at hm; exact hm.2 :
    v ∈ (dedupFirst (presentCells col)).filter _)).2
  have hveq : (presentCells col).count v =
      ((dedupFirst (presentCells col)).map
        (fun w => (presentCells col).count w)).foldr max 0 := by
    simpa using hvc
  rw [hveq]
  apply le_foldr_maxNat
  exact List.mem_map_of_mem _ ((mem_dedupFirst _ w).2 hw)

lemma modeValue_tiebreak (col : List Cell) (v : Cell) (h : modeValue col = some v) :
    ∀ w ∈ presentCells col,
      (presentCells col).count w = (presentCells col).count v →
        cellLe v w = true := by
  intro w hw hcount
  have hhead : (sortCells (modeCands col)).head? = some v := by
    rw [modeValue] at h; exact h
  apply head_sortCells_min _ v hhead
  rw [mem_sortCells]
  have hm := modeValue_mem col v h
  have hvc := (List.mem_filter.1 (by rw [modeCands] at hm; exact hm.2 :
    v ∈ (dedupFirst (presentCells col)).filter _)).2
  rw [modeCands]
  apply List.mem_filter.2
  refine ⟨(mem_dedupFirst _ w).2 hw, ?_⟩
  rw [beq_iff_eq] at hvc ⊢
  rw [hcount, hvc]

@[simp] lemma except_bind_ok {ε α β : Type} (a : α) (f : α → Except ε β) :
    (Except.ok a : Except ε α) >>= f = f a := rfl

@[simp] lemma except_bind_error {ε α β : Type} (e : ε) (f : α → Except ε β) :
    (Except.error e : Except ε α) >>= f = Except.error e := rfl

lemma map_get_zipWith (get : Row → Cell) (set : Row → Cell → Row)
    (h : ∀ r c, get (set r c) = get r) :
    ∀ (t : Table) (col : List Cell), col.length = t.length →
      (List.zipWith set t col).map get = t.map get := by
  intro t
  induction t with
  | nil => intro col hlen; simp
  | cons r rs ih =>
    intro col hlen
    cases col with
    | nil => exact absurd hlen (by simp)
    | cons c cs =>
      rw [List.zipWith_cons_cons, List.map_cons, List.map_cons, h r c,
        ih cs (by simpa using hlen)]

lemma length_zipWith_set (set : Row → Cell → Row) (t : Table) (col : List Cell)
    (hlen : col.length = t.length) :
    (List.zipWith set t col).length = t.length := by
  rw [List.length_zipWith, hlen, Nat.min_self]

lemma imputeMedianCol_ok (col : List Cell) (h : col.any Cell.isStr = false) :
    ∃ c, imputeMedianCol col = .ok c ∧ c.length = col.length := by
  rw [imputeMedianCol, h]
  simp only [Bool.false_eq_true, if_false]
  cases hm : medianQ (col.filterMap Cell.toNum) with
  | none => exact ⟨col, rfl, rfl⟩
  | some m => exact ⟨_, rfl, by simp⟩

lemma map_get_setCol (get : Row → Cell) (set : Row → Cell → Row)
    (h : ∀ r c, get (set r c) = get r) :
    ∀ (t : Table) (col : List Cell), col.length = t.length →
      (List.zipWith set t col).map get = t.map get :=
  map_get_zipWith get set h

lemma imputeStage_keyError (t : Table)
    (ha : (t.map (fun r => r.age)).any Cell.isStr = false)
    (hb : (t.map (fun r => r.attendance)).any Cell.isStr = false)
    (hc : (t.map (fun r => r.assignment_score)).any Cell.isStr = false)
    (hd : (t.map (fun r => r.exam_score)).any Cell.isStr = false)
    (hg : presentCells (t.map (fun r => r.gender)) = []) :
    imputeStage t = .error .keyError := by
  obtain ⟨c1, h1, l1⟩ := imputeMedianCol_ok _ ha
  have l1t : c1.length = t.length := by simpa using l1
  have len1 : (setAgeCol t c1).length = t.length := by
    rw [setAgeCol, List.length_zipWith, l1t, Nat.min_self]
  have hb1 : (setAgeCol t c1).map (fun r => r.attendance) =
      t.map (fun r => r.attendance) :=
    map_get_zipWith (fun r => r.attendance) (fun r c => { r with age := c })
      (fun r c => rfl) t c1 l1t
  have hb' : ((setAgeCol t c1).map (fun r => r.attendance)).any Cell.isStr = false := by
    rw [hb1]; exact hb
  obtain ⟨c2, h2, l2⟩ := imputeMedianCol_ok _ hb'
  have l2t : c2.length = (setAgeCol t c1).length := by simpa using l2
  have len2 : (setAttendanceCol (setAgeCol t c1) c2).length = (setAgeCol t c1).length := by
    rw [setAttendanceCol, List.length_zipWith, l2t, Nat.min_self]
  have hc2 : (setAttendanceCol (setAgeCol t c1) c2).map (fun r => r.assignment_score) =
      (setAgeCol t c1).map (fun r => r.assignment_score) :=
    map_get_zipWith (fun r => r.assignment_score)
      (fun r c => { r with attendance := c }) (fun r c => rfl) _ c2 l2t
  have hc1 : (setAgeCol t c1).map (fun r => r.assignment_score) =
      t.map (fun r => r.assignment_score) :=
    map_get_zipWith (fun r => r.assignment_score)
      (fun r c => { r with age := c }) (fun r c => rfl) t c1 l1t
  have hc' : ((setAttendanceCol (setAgeCol t c1) c2).map
      (fun r => r.assignment_score)).any Cell.isStr = false := by
    rw [hc2, hc1]; exact hc
  obtain ⟨c3, h3, l3⟩ := imputeMedianCol_ok _ hc'
  have l3t : c3.length = (setAttendanceCol (setAgeCol t c1) c2).length := by
    simpa using l3
  have hd3 : (setAssignmentCol (setAttendanceCol (setAgeCol t c1) c2) c3).map
      (fun r => r.exam_score) =
      (setAttendanceCol (setAgeCol t c1) c2).map (fun r => r.exam_score) :=
    map_get_zipWith (fun r => r.exam_score)
      (fun r c => { r with assignment_score := c }) (fun r c => rfl) _ c3 l3t
  have hd2 : (setAttendanceCol (setAgeCol t c1) c2).map (fun r => r.exam_score) =
      (setAgeCol t c1).map (fun r => r.exam_score) :=
    map_get_zipWith (fun r => r.exam_score)
      (fun r c => { r with attendance := c }) (fun r c => rfl) _ c2 l2t
  have hd1 : (setAgeCol t c1).map (fun r => r.exam_score) =
      t.map (fun r => r.exam_score) :=
    map_get_zipWith (fun r => r.exam_score)
      (fun r c => { r with age := c }) (fun r c => rfl) t c1 l1t
  have hd' : ((setAssignmentCol (setAttendanceCol (setAgeCol t c1) c2) c3).map
      (fun r => r.exam_score)).any Cell.isStr = false := by
    rw [hd3, hd2, hd1]; exact hd
  obtain ⟨c4, h4, l4⟩ := imputeMedianCol_ok _ hd'
  have l4t : c4.length =
      (setAssignmentCol (setAttendanceCol (setAgeCol t c1) c2) c3).length := by
    simpa using l4
  have hg4 : (setExamCol (setAssignmentCol (setAttendanceCol (setAgeCol t c1) c2) c3) c4).map
      (fun r => r.gender) =
      (setAssignmentCol (setAttendanceCol (setAgeCol t c1) c2) c3).map
        (fun r => r.gender) :=
    map_get_zipWith (fun r => r.gender)
      (fun r c => { r with exam_score := c }) (fun r c => rfl) _ c4 l4t
  have hg3 : (setAssignmentCol (setAttendanceCol (setAgeCol t c1) c2) c3).map
      (fun r => r.gender) =
      (setAttendanceCol (setAgeCol t c1) c2).map (fun r => r.gender) :=
    map_get_zipWith (fun r => r.gender)
      (fun r c => { r with assignment_score := c }) (fun r c => rfl) _ c3 l3t
  have hg2 : (setAttendanceCol (setAgeCol t c1) c2).map (fun r => r.gender) =
      (setAgeCol t c1).map (fun r => r.gender) :=
    map_get_zipWith (fun r => r.gender)
      (fun r c => { r with attendance := c }) (fun r c => rfl) _ c2 l2t
  have hg1 : (setAgeCol t c1).map (fun r => r.gender) = t.map (fun r => r.gender) :=
    map_get_zipWith (fun r => r.gender)
      (fun r c => { r with age := c }) (fun r c => rfl) t c1 l1t
  have hmode : imputeModeCol
      ((setExamCol (setAssignmentCol (setAttendanceCol (setAgeCol t c1) c2) c3) c4).map
        (fun r => r.gender)) = .error .keyError := by
    rw [hg4, hg3, hg2, hg1, imputeModeCol, modeValue_of_no_present _ hg]
  simp only [imputeStage, h1, except_bind_ok, h2, h3, h4, hmode,
    except_bind_error]

lemma anyIsStr_map_num (qs : List ℚ) : (qs.map Cell.num).any Cell.isStr = false := by
  induction qs with
  | nil => rfl
  | cons a as ih => simpa using ih

lemma anyIsNa_map_num (qs : List ℚ) : (qs.map Cell.num).any Cell.isNa = false := by
  induction qs with
  | nil => rfl
  | cons a as ih => simpa using ih

lemma filterMap_round_map_num (qs : List ℚ) :
    (qs.map Cell.num).filterMap (fun c => (Cell.toNum c).map roundHalfEven) =
      qs.map roundHalfEven := by
  induction qs with
  | nil => rfl
  | cons a as ih =>
    rw [List.map_cons, List.filterMap_cons, List.map_cons]
    simpa using ih

/-! ### The claims -/

/-- Claim C1: the script's only import is pandas, yet the missing-marker
loop evaluates `np.nan`; for every input table with at least one
text-typed (object) column the run raises an unhandled NameError at the
missing-marker normalization stage (cleaning step 2), later stages never
run, and no output file is written. -/
theorem c1_np_nameError (t : Table) (h : hasObjectColumn t = true) :
    runScript t = .error (2, PyErr.nameError "np") ∧ outputSaved t = false := by
  have hd : hasObjectColumn (dropDuplicates t) = true := by
    rcases List.any_eq_true.1 h with ⟨r, hr, hrs⟩
    exact List.any_eq_true.2 ⟨r, (mem_dedupFirst t r).2 hr, hrs⟩
  have hrun : runScript t = .error (2, PyErr.nameError "np") := by
    simp only [runScript, hd]
    rfl
  exact ⟨hrun, by rw [outputSaved, hrun]; rfl⟩

/-- Witness for C1 at a concrete one-row table (its student_id, gender,
final_grade and department cells are strings, so the table has text-typed
columns). -/
theorem c1_np_nameError_witness :
    runScript [mkRowG "W1" (Cell.num 20) (Cell.str "Male") (Cell.num 50)] =
      .error (2, PyErr.nameError "np") :=
  (c1_np_nameError [mkRowG "W1" (Cell.num 20) (Cell.str "Male") (Cell.num 50)]
    (by decide)).1

/-- Claim C7: duplicate elimination keeps exactly the rows with no
full-row-equal earlier row (in original order: the `enum`/`take`
characterization), its output has no duplicates and is a sublist of the
input (relative order preserved), and on two identical rows plus one
distinct row it keeps the earlier copy and drops exactly one row. -/
theorem c7_duplicate_elimination :
    (∀ t : Table, dropDuplicates t =
      ((t.enum.filter fun p => decide (p.2 ∉ t.take p.1)).map Prod.snd)) ∧
    (∀ t : Table, (dropDuplicates t).Nodup) ∧
    (∀ t : Table, List.Sublist (dropDuplicates t) t) ∧
    (∀ r s : Row, r ≠ s →
      dropDuplicates [r, r, s] = [r, s] ∧
      (dropDuplicates [r, r, s]).length = [r, r, s].length - 1) := by
  refine ⟨?_, ?_, ?_, ?_⟩
  · intro t; exact dedupFirst_eq_filterEnum t
  · intro t; exact nodup_dedupFirstAux t []
  · intro t; exact sublist_dedupFirstAux t []
  · intro r s hrs
    have hd : dropDuplicates [r, r, s] = [r, s] := by
      show dedupFirstAux [] [r, r, s] = [r, s]
      rw [dedupFirstAux, if_neg (List.not_mem_nil r)]
      rw [dedupFirstAux, if_pos (List.mem_cons_self r [])]
      rw [dedupFirstAux, if_neg (by
        intro hmem
        rcases List.mem_cons.1 hmem with heq | hmem2
        · exact hrs heq.symm
        · exact List.not_mem_nil s hmem2)]
      rfl
    exact ⟨hd, by rw [hd]; rfl⟩

/-- Witness for C7 on two concrete distinct rows. -/
theorem c7_duplicate_elimination_witness :
    dropDuplicates [rowD1, rowD1, rowD2] = [rowD1, rowD2] :=
  (c7_duplicate_elimination.2.2.2 rowD1 rowD2 (by decide)).1

/-- Claim C8: standardization (strip, lower, title) followed by the gender
alias map sends "M", " female ", "MALE", "Other" to "Male", "Female",
"Male", "Other", and any value that is not a key of the alias map passes
through the map unchanged (no error is raised: the map is total). -/
theorem c8_gender_standardization :
    ([Cell.str "M", Cell.str " female ", Cell.str "MALE", Cell.str "Other"].map
      (fun c => applyGenderMapCell (stdCatCell c))) =
      [Cell.str "Male", Cell.str "Female", Cell.str "Male", Cell.str "Other"] ∧
    (∀ s : String, s ∉ gender_mapping.map Prod.fst → genderReplace s = s) := by
  constructor
  · decide
  · intro s hs
    simp only [gender_mapping, List.map_cons, List.map_nil, List.mem_cons,
      List.not_mem_nil, or_false, not_or] at hs
    obtain ⟨h1, h2, h3, h4⟩ := hs
    rw [genderReplace, gender_mapping]
    have hlk : List.lookup s
        [("M", "Male"), ("F", "Female"), ("Male", "Male"), ("Female", "Female")] =
        none := by
      simp [List.lookup, beq_eq_false_iff_ne.2 h1, beq_eq_false_iff_ne.2 h2,
        beq_eq_false_iff_ne.2 h3, beq_eq_false_iff_ne.2 h4]
    rw [hlk]

/-- Witness for C8: the out-of-vocabulary value "Other" passes through. -/
theorem c8_gender_standardization_witness : genderReplace "Other" = "Other" :=
  c8_gender_standardization.2 "Other" (by decide)

/-- Counterexample to C10 as stated: a file whose header lacks six of the
eight expected columns, and one with an extra ninth column, both load
successfully — `pd.read_csv` with default arguments does not fail on
extra or missing columns. -/
theorem c10_counterexample :
    (["student_id", "age"] ≠ expected_columns) ∧
    readCsv [["student_id", "age"], ["S1", "20"]] =
      .ok ⟨["student_id", "age"], [["S1", "20"]]⟩ ∧
    (expected_columns ++ ["extra"] ≠ expected_columns) ∧
    readCsv [expected_columns ++ ["extra"]] =
      .ok ⟨expected_columns ++ ["extra"], []⟩ := by
  refine ⟨by decide, by decide, by decide, by decide⟩

/-- Claim C10 (amended): loading performs no header validation — whatever
the first line holds becomes the header and the load succeeds for any
well-formed file, regardless of the expected eight columns; a missing
expected column surfaces only later, as a KeyError when that column is
first accessed. -/
theorem c10_no_header_validation (hdr : List String) (rows : List (List String))
    (h : rows.all (fun row => row.length ≤ hdr.length) = true) :
    readCsv (hdr :: rows) = .ok ⟨hdr, rows⟩ ∧
    columnIndex ⟨["student_id", "age"], [["S1", "20"]]⟩ "gender" =
      .error .keyError := by
  constructor
  · simp only [readCsv]
    rw [if_pos h]
  · decide

/-- Witness for C10 on a concrete two-column file. -/
theorem c10_no_header_validation_witness :
    readCsv [["a", "b"], ["1", "2"]] = .ok ⟨["a", "b"], [["1", "2"]]⟩ :=
  (c10_no_header_validation ["a", "b"] [["1", "2"]] (by decide)).1

/-- Counterexample to C2 as stated: the coercion stage (script lines
133-134) loops over `assignment_score` and `exam_score` only, so a
non-numeric attendance cell "abc" is left in place instead of becoming
the absent marker. -/
theorem c2_counterexample :
    coerceScoresStage [rowC2] = [rowC2] ∧
    rowC2.attendance = Cell.str "abc" ∧
    parseFloatQ "abc" = none ∧
    Cell.str "abc" ≠ Cell.na := by
  refine ⟨by decide, rfl, by decide, by decide⟩

/-- Claim C2 (amended): the numeric-coercion stage is total (it cannot
raise) and rewrites exactly the `assignment_score` and `exam_score`
cells of every row — a cell becomes its parsed value when it parses and
the absent marker when it does not — while `attendance` (and every other
column) passes through unchanged. -/
theorem c2_coercion (t : Table) (i : Nat) (hi : i < t.length)
    (hi2 : i < (coerceScoresStage t).length) :
    (coerceScoresStage t).length = t.length ∧
    ((coerceScoresStage t).get ⟨i, hi2⟩).attendance = (t.get ⟨i, hi⟩).attendance ∧
    ((coerceScoresStage t).get ⟨i, hi2⟩).age = (t.get ⟨i, hi⟩).age ∧
    ((coerceScoresStage t).get ⟨i, hi2⟩).student_id = (t.get ⟨i, hi⟩).student_id ∧
    ((coerceScoresStage t).get ⟨i, hi2⟩).gender = (t.get ⟨i, hi⟩).gender ∧
    ((coerceScoresStage t).get ⟨i, hi2⟩).assignment_score =
      toNumericCell (t.get ⟨i, hi⟩).assignment_score ∧
    ((coerceScoresStage t).get ⟨i, hi2⟩).exam_score =
      toNumericCell (t.get ⟨i, hi⟩).exam_score ∧
    (∀ (s : String) (q : ℚ), parseFloatQ s = some q →
      toNumericCell (Cell.str s) = Cell.num q) ∧
    (∀ s : String, parseFloatQ s = none → toNumericCell (Cell.str s) = Cell.na) ∧
    toNumericCell Cell.na = Cell.na := by
  refine ⟨by simp [coerceScoresStage], ?_, ?_, ?_, ?_, ?_, ?_, ?_, ?_, rfl⟩
  · simp [coerceScoresStage, List.get_eq_getElem, List.getElem_map]
  · simp [coerceScoresStage, List.get_eq_getElem, List.getElem_map]
  · simp [coerceScoresStage, List.get_eq_getElem, List.getElem_map]
  · simp [coerceScoresStage, List.get_eq_getElem, List.getElem_map]
  · simp [coerceScoresStage, List.get_eq_getElem, List.getElem_map]
  · simp [coerceScoresStage, List.get_eq_getElem, List.getElem_map]
  · intro s q h; simp [toNumericCell, h]
  · intro s h; simp [toNumericCell, h]

/-- Witness for C2 on a concrete one-row table whose attendance is a
non-numeric string. -/
theorem c2_coercion_witness :
    ((coerceScoresStage [rowC2]).get ⟨0, by decide⟩).attendance =
      ([rowC2].get ⟨0, by decide⟩).attendance :=
  (c2_coercion [rowC2] 0 (by decide) (by decide)).2.1

/-- Counterexample to C3 as stated: with the attendance column entirely
absent, `fillna(median)` is a no-op (the median of no values is NaN),
the pipeline completes without any error, and the saved output still
carries the absent attendance cells. -/
theorem c3_counterexample :
    pipeline tAttAbsent = .ok tAttAbsent ∧
    tAttAbsent.map (fun r => r.attendance) = [Cell.na, Cell.na] := by
  constructor
  · with_unfolding_all decide
  · decide

/-- Claim C3 (amended): an all-absent categorical column (`gender` here;
`department` is symmetric) raises KeyError at imputation — a fatal error,
so no output is saved; an all-absent `age` column passes imputation
silently but makes the age-correction stage raise on the absent values —
again fatal; but an all-absent score column (`attendance` here) is left
entirely absent and the pipeline completes and saves output. -/
theorem c3_degenerate_columns (t : Table)
    (ha : (t.map (fun r => r.age)).any Cell.isStr = false)
    (hb : (t.map (fun r => r.attendance)).any Cell.isStr = false)
    (hc : (t.map (fun r => r.assignment_score)).any Cell.isStr = false)
    (hd : (t.map (fun r => r.exam_score)).any Cell.isStr = false)
    (hg : presentCells (t.map (fun r => r.gender)) = []) :
    imputeStage t = .error .keyError ∧
    pipeline tAgeAbsent = .error .naComparisonError ∧
    pipeline tAttAbsent = .ok tAttAbsent := by
  refine ⟨imputeStage_keyError t ha hb hc hd hg, ?_, ?_⟩
  · with_unfolding_all decide
  · with_unfolding_all decide

/-- Witness for C3 at a one-row table whose gender cell is absent. -/
theorem c3_degenerate_columns_witness :
    imputeStage [rowNoGender] = .error PyErr.keyError :=
  (c3_degenerate_columns [rowNoGender] (by decide) (by decide) (by decide)
    (by decide) (by decide)).1

/-- Counterexample to C4 as stated: gender column ["b", "a", absent] —
"b" is the first value encountered among the two tied most-frequent
values, yet imputation fills the absent cell with "a" (`mode()` sorts
its result, `[0]` takes the smallest). -/
theorem c4_counterexample :
    imputeStage tTie = .ok uTie ∧
    tTie.map (fun r => r.gender) = [Cell.str "b", Cell.str "a", Cell.na] ∧
    uTie.map (fun r => r.gender) = [Cell.str "b", Cell.str "a", Cell.str "a"] ∧
    (presentCells (tTie.map fun r => r.gender)).count (Cell.str "b") =
      (presentCells (tTie.map fun r => r.gender)).count (Cell.str "a") ∧
    Cell.str "a" ≠ Cell.str "b" := by
  refine ⟨by with_unfolding_all decide, by decide, by decide, by decide, by decide⟩

/-- Claim C4 (amended): mode imputation fills every absent cell with a
most frequent present value, but the tie-break is the least value in
ascending sort order (`mode()[0]`), not the first encountered in table
order. -/
theorem c4_mode_imputation (col : List Cell) (v : Cell)
    (h : modeValue col = some v) :
    v ∈ presentCells col ∧
    (∀ w ∈ presentCells col,
      (presentCells col).count w ≤ (presentCells col).count v) ∧
    (∀ w ∈ presentCells col,
      (presentCells col).count w = (presentCells col).count v →
        cellLe v w = true) ∧
    imputeModeCol col = .ok (col.map fun c => if c = Cell.na then v else c) := by
  refine ⟨(modeValue_mem col v h).1, modeValue_maximal col v h,
    modeValue_tiebreak col v h, ?_⟩
  rw [imputeModeCol, h]

/-- Witness for C4 on the tied column ["b", "a", absent]. -/
theorem c4_mode_imputation_witness :
    imputeModeCol [Cell.str "b", Cell.str "a", Cell.na] =
      .ok ([Cell.str "b", Cell.str "a", Cell.na].map
        fun c => if c = Cell.na then Cell.str "a" else c) :=
  (c4_mode_imputation [Cell.str "b", Cell.str "a", Cell.na] (Cell.str "a")
    (by decide)).2.2.2

/-- Claim C5: the age correction rounds every age to an integer, computes
the median of the whole integerized column at that moment (out-of-range
rows included), overwrites every out-of-range age (outside [16, 40]) with
that median, and leaves every in-range age unchanged — replacement with
the median, never a clamp to the boundary. -/
theorem c5_age_correction (qs : List ℚ) (m : ℚ)
    (hm : medianQ (qs.map fun q => ((roundHalfEven q : ℤ) : ℚ)) = some m) :
    ageCorrectCol (qs.map Cell.num) =
      .ok (qs.map fun q =>
        if roundHalfEven q < 16 ∨ 40 < roundHalfEven q then Cell.num m
        else Cell.num ((roundHalfEven q : ℤ) : ℚ)) := by
  have hcast : ((qs.map Cell.num).filterMap
      (fun c => (Cell.toNum c).map roundHalfEven)).map (fun (i : ℤ) => (i : ℚ)) =
      qs.map (fun q => ((roundHalfEven q : ℤ) : ℚ)) := by
    rw [filterMap_round_map_num, List.map_map]
    rfl
  have hmed : medianQ (((qs.map Cell.num).filterMap
      (fun c => (Cell.toNum c).map roundHalfEven)).map (fun (i : ℤ) => (i : ℚ))) =
      some m := by
    rw [hcast]; exact hm
  have hout : ((qs.map Cell.num).filterMap
      (fun c => (Cell.toNum c).map roundHalfEven)).map
        (fun (a : ℤ) => if a < 16 ∨ 40 < a then Cell.num m else Cell.num (a : ℚ)) =
      qs.map (fun q =>
        if roundHalfEven q < 16 ∨ 40 < roundHalfEven q then Cell.num m
        else Cell.num ((roundHalfEven q : ℤ) : ℚ)) := by
    rw [filterMap_round_map_num, List.map_map]
    rfl
  rw [ageCorrectCol, anyIsStr_map_num, anyIsNa_map_num]
  simp only [Bool.false_eq_true, if_false]
  rw [hmed]
  exact congrArg Except.ok hout

/-- Witness for C5 on the design document's example ages 10, 45, 20, 22:
the integerized median is 21; 10 and 45 become 21, 20 and 22 stay. -/
theorem c5_age_correction_witness :
    ageCorrectCol ([(10 : ℚ), 45, 20, 22].map Cell.num) =
      .ok ([(10 : ℚ), 45, 20, 22].map fun q =>
        if roundHalfEven q < 16 ∨ 40 < roundHalfEven q then Cell.num 21
        else Cell.num ((roundHalfEven q : ℤ) : ℚ)) :=
  c5_age_correction [10, 45, 20, 22] 21 (by with_unfolding_all decide)

/-- Claim C6: the range clamp maps a value below 0 to 0, a value above
100 to 100 and keeps a value inside [0, 100]; and the pipeline sends
input attendance values 105, -5, 50 (all other columns valid) to output
attendance values 100, 0, 50. -/
theorem c6_range_clamping :
    (∀ q : ℚ, q < 0 → clipQ q = 0) ∧
    (∀ q : ℚ, 100 < q → clipQ q = 100) ∧
    (∀ q : ℚ, 0 ≤ q → q ≤ 100 → clipQ q = q) ∧
    pipeline t6clamp = .ok u6clamp ∧
    t6clamp.map (fun r => r.attendance) =
      [Cell.num 105, Cell.num (-5), Cell.num 50] ∧
    u6clamp.map (fun r => r.attendance) =
      [Cell.num 100, Cell.num 0, Cell.num 50] := by
  refine ⟨?_, ?_, ?_, ?_, by decide, by decide⟩
  · intro q h
    rw [clipQ, max_eq_right h.le, min_eq_left (by norm_num)]
  · intro q h
    rw [clipQ, max_eq_left (le_trans (by norm_num) h.le), min_eq_right h.le]
  · intro q h0 h100
    rw [clipQ, max_eq_left h0, min_eq_left h100]
  · with_unfolding_all decide

/-- Witness for C6 at the three concrete attendance values. -/
theorem c6_range_clamping_witness :
    clipQ (-5) = 0 ∧ clipQ 105 = 100 ∧ clipQ 50 = 50 :=
  ⟨c6_range_clamping.1 (-5) (by norm_num),
   c6_range_clamping.2.1 105 (by norm_num),
   c6_range_clamping.2.2.1 50 (by norm_num) (by norm_num)⟩

/-- Counterexample to C9 as stated: cleaning `t9` (ages 10, 45, 20, 23)
writes the fractional median age 21.5 into the out-of-range rows; running
the pipeline again on that cleaned output rounds 21.5 up to 22, so the
second run does not reproduce its input. -/
theorem c9_counterexample :
    pipeline t9 = .ok u9 ∧ pipeline u9 = .ok v9 ∧ v9 ≠ u9 := by
  refine ⟨?_, ?_, ?_⟩
  · with_unfolding_all decide
  · with_unfolding_all decide
  · with_unfolding_all decide

/-- Claim C9 (amended): the pipeline is not idempotent — whenever the
first run's age-correction median is fractional the second run re-rounds
the imputed ages — but on the concrete input `t9` the second run changes
only the age column; every other column is reproduced exactly. -/
theorem c9_not_idempotent :
    pipeline t9 = .ok u9 ∧ pipeline u9 = .ok v9 ∧ v9 ≠ u9 ∧
    v9.map eraseAge = u9.map eraseAge := by
  refine ⟨?_, ?_, ?_, ?_⟩
  · with_unfolding_all decide
  · with_unfolding_all decide
  · with_unfolding_all decide
  · with_unfolding_all decide
